import Mathlib

/-!
A verification development for a small client-side todo application.

The program under study has three parts:
* a sessionStorage adapter (`isValidTodos`, `loadTodos`, `saveTodos`) that
  serializes / deserializes and validates the todo collection;
* a provider component (`TodoProvider`) that owns the in-memory collection,
  hydrates it from the adapter at construction, exposes the mutation
  operations `addTodo`, `editTodo`, `toggleTodoCompletion`, `deleteTodo`,
  and persists the collection through a reactive effect keyed on the
  collection reference;
* a toast component whose `showToast` generates a notification id from the
  current clock reading and whose dismissal filters notifications by id.

The embedding below models JavaScript runtime values with the inductive
`JSVal`, the session store with `Session` (which also carries the failure
behaviour of the store primitives, so that the adapter's try/catch logic
is represented explicitly), and the React rendering/effect discipline with
an explicit array-reference counter (`ArrRef`) plus an effect-flush step,
mirroring how a `useEffect` with dependency list compares dependencies by
reference identity.

Platform string conversions (`Date.prototype.toISOString`, `new Date(s)`,
`Number.prototype.toString`) are modeled by an executable decimal encoding
of the underlying instant with a proven parse inverse: the program's claims
depend only on the encoded instant being recoverable (the encoding is
injective, like ISO-8601 timestamps with millisecond precision), never on
the concrete character shape of the wire text.
-/

namespace TodoApp

/-! ## Decimal codec: model of the platform's number/date string conversions -/

/-- Little-endian evaluation of a base-10 digit list. -/
def ofDigitsRev : List Nat → Nat
  | [] => 0
  | d :: ds => d + 10 * ofDigitsRev ds

/-- Little-endian base-10 digits of `n`, with explicit fuel (fuel ≥ n suffices). -/
def toDigitsRev : Nat → Nat → List Nat
  | 0, _ => []
  | fuel + 1, n => if n = 0 then [] else n % 10 :: toDigitsRev fuel (n / 10)

theorem ofDigitsRev_toDigitsRev (fuel : Nat) :
    ∀ n : Nat, n ≤ fuel → ofDigitsRev (toDigitsRev fuel n) = n := by
  induction fuel with
  | zero =>
    intro n hn
    have : n = 0 := Nat.le_zero.mp hn
    subst this
    rfl
  | succ fuel ih =>
    intro n hn
    by_cases h0 : n = 0
    · subst h0
      simp [toDigitsRev, ofDigitsRev]
    · have hdiv : n / 10 ≤ fuel := by
        have : n / 10 < n := Nat.div_lt_self (Nat.pos_of_ne_zero h0) (by norm_num)
        omega
      simp only [toDigitsRev, if_neg h0, ofDigitsRev, ih (n / 10) hdiv]
      exact Nat.mod_add_div n 10

theorem toDigitsRev_lt (fuel : Nat) :
    ∀ n : Nat, ∀ d ∈ toDigitsRev fuel n, d < 10 := by
  induction fuel with
  | zero => intro n d hd; simp [toDigitsRev] at hd
  | succ fuel ih =>
    intro n d hd
    by_cases h0 : n = 0
    · subst h0; simp [toDigitsRev] at hd
    · simp only [toDigitsRev, if_neg h0, List.mem_cons] at hd
      rcases hd with h | h
      · subst h; exact Nat.mod_lt _ (by norm_num)
      · exact ih (n / 10) d h

/-- The character for a single decimal digit. -/
def digitChar (d : Nat) : Char := Char.ofNat (48 + d)

/-- The decimal digit denoted by a character. -/
def charDigit (c : Char) : Nat := c.toNat - 48

theorem charDigit_digitChar {d : Nat} (h : d < 10) : charDigit (digitChar d) = d := by
  interval_cases d <;> rfl

theorem digitChar_ne_dash {d : Nat} (h : d < 10) : digitChar d ≠ '-' := by
  interval_cases d <;> decide

/-- Decimal character run of a natural number, most significant digit first. -/
def natChars (n : Nat) : List Char :=
  if n = 0 then ['0'] else ((toDigitsRev n n).reverse.map digitChar)

/-- Model of `Number.prototype.toString` on a nonnegative integer. -/
def natToDecimal (n : Nat) : String := String.mk (natChars n)

/-- Read a decimal digit run back into a natural number. -/
def decNatOfChars (l : List Char) : Nat := ofDigitsRev ((l.map charDigit).reverse)

theorem natChars_ne_nil (n : Nat) : natChars n ≠ [] := by
  unfold natChars
  by_cases h0 : n = 0
  · simp [h0]
  · obtain ⟨m, rfl⟩ := Nat.exists_eq_succ_of_ne_zero h0
    simp [toDigitsRev]

theorem natChars_ne_dash (n : Nat) : ∀ c ∈ natChars n, c ≠ '-' := by
  intro c hc
  unfold natChars at hc
  by_cases h0 : n = 0
  · simp [h0] at hc
    subst hc; decide
  · simp only [if_neg h0, List.mem_map, List.mem_reverse] at hc
    obtain ⟨d, hd, rfl⟩ := hc
    exact digitChar_ne_dash (toDigitsRev_lt n n d hd)

theorem decNatOfChars_natChars (n : Nat) : decNatOfChars (natChars n) = n := by
  unfold decNatOfChars natChars
  by_cases h0 : n = 0
  · simp [h0]
    subst h0; rfl
  · simp only [if_neg h0, List.map_map, List.map_reverse, List.reverse_reverse]
    have hmap : (toDigitsRev n n).map (charDigit ∘ digitChar) = toDigitsRev n n := by
      rw [List.map_congr_left, List.map_id]
      intro d hd
      exact charDigit_digitChar (toDigitsRev_lt n n d hd)
    rw [hmap]
    exact ofDigitsRev_toDigitsRev n n (Nat.le_refl n)

/-- Model of `Date.prototype.toISOString`: the character run that serializes an
instant (milliseconds since the epoch, possibly negative). -/
def intChars (t : Int) : List Char :=
  if t < 0 then '-' :: natChars t.natAbs else natChars t.natAbs

/-- Model of `Date.prototype.toISOString` as a string. -/
def intToDecimal (t : Int) : String := String.mk (intChars t)

/-- Model of `new Date(s)` applied to a serialized instant: read the character
run back into an instant. -/
def decIntOfChars (l : List Char) : Int :=
  match l with
  | [] => (decNatOfChars [] : Nat)
  | c :: rest =>
    if c = '-' then -(decNatOfChars rest : Nat) else (decNatOfChars (c :: rest) : Nat)

/-- Model of `new Date(s)` on a string. -/
def decimalToInt (s : String) : Int := decIntOfChars s.data

theorem decimalToNat_natToDecimal (n : Nat) :
    decNatOfChars (natToDecimal n).data = n := by
  show decNatOfChars (String.mk (natChars n)).data = n
  rw [show (String.mk (natChars n)).data = natChars n from rfl]
  exact decNatOfChars_natChars n

theorem natToDecimal_injective {a b : Nat} (h : natToDecimal a = natToDecimal b) :
    a = b := by
  have ha := decimalToNat_natToDecimal a
  have hb := decimalToNat_natToDecimal b
  rw [h] at ha
  rw [hb] at ha
  exact ha.symm

theorem decimalToInt_intToDecimal (t : Int) : decimalToInt (intToDecimal t) = t := by
  unfold decimalToInt intToDecimal intChars
  by_cases ht : t < 0
  · rw [if_pos ht]
    show decIntOfChars ('-' :: natChars t.natAbs) = t
    simp only [decIntOfChars, reduceIte, decNatOfChars_natChars]
    omega
  · rw [if_neg ht]
    obtain ⟨c, cs, hcons⟩ : ∃ c cs, natChars t.natAbs = c :: cs := by
      cases hn : natChars t.natAbs with
      | nil => exact absurd hn (natChars_ne_nil _)
      | cons c cs => exact ⟨c, cs, rfl⟩
    show decIntOfChars (String.mk (natChars t.natAbs)).data = t
    rw [show (String.mk (natChars t.natAbs)).data = natChars t.natAbs from rfl, hcons]
    have hne : c ≠ '-' := by
      apply natChars_ne_dash t.natAbs
      rw [hcons]; exact List.mem_cons_self c cs
    simp only [decIntOfChars, if_neg hne]
    rw [← hcons, decNatOfChars_natChars]
    omega

/-! ## JavaScript runtime values

`JSVal` models the JavaScript values the adapter manipulates: primitives,
`null`, `undefined`, `Date` objects (identified by the instant they hold),
arrays and plain objects (ordered field lists; `JSON.parse` never produces
duplicate keys). -/

inductive JSVal where
  | str (s : String)
  | num (n : Int)
  | bool (b : Bool)
  | null
  | undefinedVal
  | date (t : Int)
  | arr (elems : List JSVal)
  | obj (fields : List (String × JSVal))
deriving Repr

/-- Model of the JavaScript `typeof` operator (note `typeof null`,
`typeof someArray` and `typeof someDate` are all `"object"`). -/
def typeofStr : JSVal → String
  | .str _ => "string"
  | .num _ => "number"
  | .bool _ => "boolean"
  | .null => "object"
  | .undefinedVal => "undefined"
  | .date _ => "object"
  | .arr _ => "object"
  | .obj _ => "object"

/-- Whether the value is the JavaScript `null`. -/
def isNull : JSVal → Bool
  | .null => true
  | _ => false

/-- Model of `v instanceof Date`. -/
def isInstanceOfDate : JSVal → Bool
  | .date _ => true
  | _ => false

/-- Model of property access `v[k]`: a missing property, or a property access
on a non-object (array, date, primitive), yields `undefined`. -/
def getField (v : JSVal) (k : String) : JSVal :=
  match v with
  | .obj fs =>
    match fs.find? (fun p => p.1 == k) with
    | some p => p.2
    | none => .undefinedVal
  | _ => .undefinedVal

/-! ## Storage adapter: `isValidTodos` (src/unnamed/part_000 lines 8-24) -/

/-- The per-element check of `isValidTodos` (the body of the `data.every`
callback, source lines 13-23): `typeof item === 'object' && item !== null &&
typeof item.id === 'string' && typeof item.title === 'string' &&
typeof item.description === 'string' && typeof item.completed === 'boolean' &&
(item.createdAt instanceof Date || typeof item.createdAt === 'string')`. -/
def isValidTodoItem (item : JSVal) : Bool :=
  typeofStr item == "object" &&
  !(isNull item) &&
  typeofStr (getField item "id") == "string" &&
  typeofStr (getField item "title") == "string" &&
  typeofStr (getField item "description") == "string" &&
  typeofStr (getField item "completed") == "boolean" &&
  (isInstanceOfDate (getField item "createdAt") ||
    typeofStr (getField item "createdAt") == "string")

/-- `isValidTodos` (source lines 8-24): `Array.isArray(data)` and every
element passes the per-element check. -/
def isValidTodos : JSVal → Bool
  | .arr elems => elems.all isValidTodoItem
  | _ => false

/-! ## The in-memory `Todo` record (src/types/Todo.ts as used by the code)

In memory `createdAt` is a `Date`; we carry the instant. -/

structure Todo where
  id : String
  title : String
  description : String
  completed : Bool
  createdAt : Int
deriving Repr, DecidableEq

/-- The runtime JavaScript object a `Todo` is: five fields in declaration
order, `createdAt` a `Date` object. -/
def todoToJS (t : Todo) : JSVal :=
  .obj [("id", .str t.id), ("title", .str t.title),
        ("description", .str t.description), ("completed", .bool t.completed),
        ("createdAt", .date t.createdAt)]

/-- The wire form of a `Todo` produced by `JSON.stringify`: identical to the
runtime object except that the `Date` is serialized through `toISOString`
(modeled by `intToDecimal`). -/
def todoToWire (t : Todo) : JSVal :=
  .obj [("id", .str t.id), ("title", .str t.title),
        ("description", .str t.description), ("completed", .bool t.completed),
        ("createdAt", .str (intToDecimal t.createdAt))]

/-- Model of `JSON.stringify(todos)` for a todo collection: the JSON value
the serialized text denotes. -/
def stringifyTodos (todos : List Todo) : JSVal := .arr (todos.map todoToWire)

/-! ## Storage adapter: the session store boundary

The raw value stored under the `'todos'` key is either the empty string
(falsy, so `loadTodos` treats it like an absent value), a text that fails
`JSON.parse`, or a text that parses to a JSON value. -/

inductive RawText where
  | emptyText
  | corruptText
  | jsonOf (v : JSVal)
deriving Repr

/-- A thrown JavaScript error, as far as `saveTodos` inspects it: whether it
is an `Error` instance, and its `name`. -/
structure JSError where
  isError : Bool
  name : String
deriving Repr, DecidableEq

/-- The session store together with the failure behaviour of its primitives
during the call being modeled: `stored` is the value under the `'todos'` key
(`none` = absent, so `getItem` returns `null`); `removeThrows` says whether
`removeItem` throws; `writeError` is `none` when `setItem` succeeds and
otherwise the error that `setItem` (or serialization) throws. -/
structure Session where
  stored : Option RawText
  removeThrows : Bool
  writeError : Option JSError
deriving Repr

/-! ## Storage adapter: `loadTodos` (src/unnamed/part_000 lines 29-60) -/

/-- Warning logged by the `loadTodos` shape-validation branch (line 40). -/
def invalidShapeMsg : String :=
  "Invalid todos data in sessionStorage, clearing and using empty array"

/-- Warning logged by the `loadTodos` catch block (line 51). -/
def loadFailMsg : String := "Failed to load todos from sessionStorage:"

/-- The `createdAt` normalization applied to each loaded record (source lines
46-49): `{...todo, createdAt: typeof todo.createdAt === 'string' ?
new Date(todo.createdAt) : todo.createdAt}`. The spread copies every field
(including any extra ones) and overrides `createdAt` in place (appending it
when absent, per JavaScript spread-then-override semantics). -/
def setField : List (String × JSVal) → String → JSVal → List (String × JSVal)
  | [], k, v => [(k, v)]
  | (k', v') :: rest, k, v =>
    if k' == k then (k, v) :: rest else (k', v') :: setField rest k v

def normalizeTodo (item : JSVal) : JSVal :=
  let c := getField item "createdAt"
  let c' := match c with
    | .str s => JSVal.date (decimalToInt s)
    | other => other
  match item with
  | .obj fs => .obj (setField fs "createdAt" c')
  | other => other

/-- The elements of a JSON array (after `isValidTodos` succeeded the parsed
value is always an array). -/
def jsElems : JSVal → List JSVal
  | .arr elems => elems
  | _ => []

/-- The catch block of `loadTodos` (source lines 50-58): log the load-failure
warning, best-effort `removeItem` whose own failure is swallowed by the inner
try/catch, return the empty array. Result components: returned todo values,
session store afterwards, warnings logged (in order). -/
def loadCatch (env : Session) : List JSVal × Session × List String :=
  if env.removeThrows then ([], env, [loadFailMsg])
  else ([], { env with stored := none }, [loadFailMsg])

/-- `loadTodos` (source lines 29-60). `getItem` returning `null` or the empty
string is falsy, so both return `[]` before `JSON.parse` runs (line 33). A
parse failure jumps to the catch block. An `isValidTodos` failure logs the
shape warning and calls `removeItem` (line 41) inside the outer `try`: when
`removeItem` throws, control transfers to the same catch block (which logs
its own warning and swallows a second `removeItem` failure). On success every
element is normalized (lines 46-49). -/
def loadTodos (env : Session) : List JSVal × Session × List String :=
  match env.stored with
  | none => ([], env, [])
  | some .emptyText => ([], env, [])
  | some .corruptText => loadCatch env
  | some (.jsonOf v) =>
    if isValidTodos v then ((jsElems v).map normalizeTodo, env, [])
    else
      if env.removeThrows then
        match loadCatch env with
        | (ts, env', ws) => (ts, env', invalidShapeMsg :: ws)
      else ([], { env with stored := none }, [invalidShapeMsg])

/-! ## Storage adapter: `saveTodos` (src/unnamed/part_000 lines 67-87) -/

/-- The user-facing quota-exceeded message (source line 77). -/
def quotaMsg : String :=
  "Storage quota exceeded – your latest changes may not be saved."

/-- The user-facing generic save-failure message (source line 84). -/
def genericSaveMsg : String := "Failed to save todos to storage."

/-- Warning logged in the quota branch (source line 74). -/
def quotaWarnMsg : String :=
  "SessionStorage quota exceeded, continuing with in-memory state"

/-- Warning logged in the generic branch (source line 81). -/
def genericWarnMsg : String := "Failed to save todos to sessionStorage:"

/-- The `{success, error?}` result of `saveTodos`. -/
structure SaveResult where
  success : Bool
  error : Option String
deriving Repr, DecidableEq

/-- `saveTodos` (source lines 67-87): serialize and `setItem` inside a `try`;
on success return `{success: true}`; in the catch block return the quota
result when the thrown value is an `Error` named `QuotaExceededError` and the
generic result otherwise. Result components as in `loadTodos`. -/
def saveTodos (todos : List Todo) (env : Session) :
    SaveResult × Session × List String :=
  match env.writeError with
  | none =>
    (⟨true, none⟩,
     { env with stored := some (.jsonOf (stringifyTodos todos)) }, [])
  | some e =>
    if e.isError && e.name == "QuotaExceededError" then
      (⟨false, some quotaMsg⟩, env, [quotaWarnMsg])
    else
      (⟨false, some genericSaveMsg⟩, env, [genericWarnMsg])

/-! ## Todo State Owner: the provider (src/src/contexts/TodoContext.tsx)

The mutation bodies are pure list transformations; the provider wires them
to React state. We first embed the list transformations, then the provider's
state/effect behaviour. -/

/-- The `Partial<Todo>` updates object of `editTodo`: each field optionally
present. -/
structure TodoUpdates where
  id? : Option String
  title? : Option String
  description? : Option String
  completed? : Option Bool
  createdAt? : Option Int
deriving Repr, DecidableEq

/-- The shallow merge `{...todo, ...updates}` used by `editTodo` (source line
35): fields present in `updates` override, the rest are preserved. Note the
source does not guard against `updates` carrying `id`. -/
def mergeTodo (t : Todo) (u : TodoUpdates) : Todo :=
  { id := u.id?.getD t.id,
    title := u.title?.getD t.title,
    description := u.description?.getD t.description,
    completed := u.completed?.getD t.completed,
    createdAt := u.createdAt?.getD t.createdAt }

/-- `addTodo` list body (source lines 23-32): `[...todos, newTodo]`. -/
def addList (todos : List Todo) (newTodo : Todo) : List Todo := todos ++ [newTodo]

/-- `editTodo` list body (source line 35):
`todos.map(todo => todo.id === id ? {...todo, ...updates} : todo)`. -/
def editList (id : String) (u : TodoUpdates) (todos : List Todo) : List Todo :=
  todos.map fun t => if t.id == id then mergeTodo t u else t

/-- `toggleTodoCompletion` list body (source line 39):
`todos.map(todo => todo.id === id ? {...todo, completed: !todo.completed} : todo)`. -/
def toggleList (id : String) (todos : List Todo) : List Todo :=
  todos.map fun t => if t.id == id then { t with completed := !t.completed } else t

/-- `deleteTodo` list body (source line 43): `todos.filter(todo => todo.id !== id)`. -/
def deleteList (id : String) (todos : List Todo) : List Todo :=
  todos.filter fun t => !(t.id == id)

/-- A JavaScript array reference: the reference identity (`rid`) and the
element values. `[...todos, x]`, `todos.map(...)` and `todos.filter(...)`
always allocate a fresh array, so every mutation installs a new `rid` even
when the element values are unchanged. -/
structure ArrRef where
  rid : Nat
  val : List Todo
deriving Repr, DecidableEq

/-- The provider's observable state: the current `todos` array (with its
reference identity), the allocator for the next array reference, the
reference the persistence effect last ran for (`useEffect`'s dependency
record for `[todos]`; `none` before the first run), and the sequence of
`saveTodos` calls issued by the effect (each entry the collection written). -/
structure ProviderState where
  todos : ArrRef
  nextRid : Nat
  effectDeps : Option Nat
  saveCalls : List (List Todo)
deriving Repr, DecidableEq

/-- `useState(() => loadTodos())` (source lines 9-12): the hydrated initial
state; no effect has run yet and no save has been issued. -/
def hydrate (loaded : List Todo) : ProviderState :=
  { todos := ⟨0, loaded⟩, nextRid := 1, effectDeps := none, saveCalls := [] }

/-- One run of React's effect phase for the persistence effect (source lines
16-21): `useEffect(() => { saveTodos(todos) ... }, [todos, showToast])`. React
re-runs the effect exactly when the dependency changed by reference identity
(`Object.is`); on the first render after mount it always runs. -/
def flushEffect (s : ProviderState) : ProviderState :=
  if s.effectDeps = some s.todos.rid then s
  else
    { todos := s.todos, nextRid := s.nextRid,
      effectDeps := some s.todos.rid,
      saveCalls := s.saveCalls ++ [s.todos.val] }

/-- `setTodos(newArray)`: installs a freshly allocated array reference. -/
def setTodosRef (s : ProviderState) (newVal : List Todo) : ProviderState :=
  { todos := ⟨s.nextRid, newVal⟩, nextRid := s.nextRid + 1,
    effectDeps := s.effectDeps, saveCalls := s.saveCalls }

/-- Construction plus the first effect phase: the provider as it stands once
mounted (hydration complete, initial effect run). -/
def mount (loaded : List Todo) : ProviderState := flushEffect (hydrate loaded)

/-- `addTodo(title, description)` (source lines 23-32) followed by the effect
phase its `setTodos` triggers. `newId` stands for the `uuidv4()` result and
`now` for `new Date()`. -/
def addTodoP (s : ProviderState) (newId : String) (now : Int)
    (title description : String) : ProviderState :=
  flushEffect (setTodosRef s (addList s.todos.val ⟨newId, title, description, false, now⟩))

/-- `editTodo(id, updates)` (source lines 34-36) followed by the effect phase. -/
def editTodoP (s : ProviderState) (id : String) (u : TodoUpdates) : ProviderState :=
  flushEffect (setTodosRef s (editList id u s.todos.val))

/-- `toggleTodoCompletion(id)` (source lines 38-40) followed by the effect
phase. -/
def toggleTodoCompletionP (s : ProviderState) (id : String) : ProviderState :=
  flushEffect (setTodosRef s (toggleList id s.todos.val))

/-- `deleteTodo(id)` (source lines 42-44) followed by the effect phase. -/
def deleteTodoP (s : ProviderState) (id : String) : ProviderState :=
  flushEffect (setTodosRef s (deleteList id s.todos.val))

/-! ## Notification Sink: the toast provider (src/unnamed/part_001) -/

/-- A notification record (`ToastMessage`, src/src/components/Toast/types.ts). -/
structure ToastMessage where
  id : String
  message : String
  ttype : String
  duration : Nat
deriving Repr, DecidableEq

/-- The notification identifier generated by `showToast` (source line 16):
`Date.now().toString()`, where `now` is the clock reading in milliseconds. -/
def genToastId (now : Nat) : String := natToDecimal now

/-- `showToast(message, type, duration)` (source lines 14-27) acting on the
active-notification list, with the ambient clock reading passed explicitly:
appends the new record. -/
def showToast (now : Nat) (message ttype : String) (duration : Nat)
    (toasts : List ToastMessage) : List ToastMessage :=
  toasts ++ [⟨genToastId now, message, ttype, duration⟩]

/-- Removal of the notification with identifier `id`: both the scheduled
auto-removal (source lines 22-24) and `dismissToast` (source lines 29-31)
run `prev.filter(toast => toast.id !== id)`. -/
def dismissToast (id : String) (toasts : List ToastMessage) : List ToastMessage :=
  toasts.filter fun t => !(t.id == id)

/-! ## Sample records used by concrete witnesses and counterexamples -/

/-- A sample todo record. -/
def sampleTodo : Todo := ⟨"1", "Existing", "From storage", false, 0⟩

/-! ## Claim theorems -/

/-- C10: when the stored raw value for the todos key is the empty string,
`loadTodos` treats it like an absent value: it returns the empty sequence,
logs no warning and does not delete the stored key, because `!stored` is
true for the empty string and the early return fires before `JSON.parse`
and before either deletion branch. -/
theorem loadTodos_empty_string (rt : Bool) (w : Option JSError) :
    loadTodos ⟨some .emptyText, rt, w⟩ = ([], ⟨some .emptyText, rt, w⟩, []) := rfl

/-- C2: `saveTodos` never lets an error escape (the embedding of its body is
total, every outcome of the underlying `setItem` being matched): it returns
`{success: true}` exactly when the store write succeeds; when the write
fails with an `Error` named `QuotaExceededError` it returns `{success:
false}` with the quota-exceeded user-facing message; on any other failure it
returns `{success: false}` with the generic failure message — and these
three results are the only possible ones, for every input collection. -/
theorem saveTodos_error_policy (todos : List Todo) (env : Session) :
    ((saveTodos todos env).1.success = true ↔ env.writeError = none) ∧
    (∀ e, env.writeError = some e →
      (e.isError = true ∧ e.name = "QuotaExceededError" →
        (saveTodos todos env).1 = ⟨false, some quotaMsg⟩) ∧
      (¬(e.isError = true ∧ e.name = "QuotaExceededError") →
        (saveTodos todos env).1 = ⟨false, some genericSaveMsg⟩)) := by
  have quotaTestFalse : ∀ e : JSError,
      ¬(e.isError = true ∧ e.name = "QuotaExceededError") →
      (e.isError && e.name == "QuotaExceededError") = false := by
    intro e hq
    by_cases hi : e.isError = true
    · have hn : e.name ≠ "QuotaExceededError" := fun hn => hq ⟨hi, hn⟩
      simp [hn]
    · simp [Bool.not_eq_true] at hi
      simp [hi]
  refine ⟨?_, ?_⟩
  · cases henv : env.writeError with
    | none => simp [saveTodos, henv]
    | some e =>
      by_cases hq : e.isError = true ∧ e.name = "QuotaExceededError"
      · have hb : (e.isError && e.name == "QuotaExceededError") = true := by
          simp [hq.1, hq.2]
        simp [saveTodos, henv, hb]
      · simp [saveTodos, henv, quotaTestFalse e hq]
  · intro e henv
    constructor
    · intro hq
      have hb : (e.isError && e.name == "QuotaExceededError") = true := by
        simp [hq.1, hq.2]
      simp [saveTodos, henv, hb]
    · intro hq
      simp [saveTodos, henv, quotaTestFalse e hq]

/-- C2 witness: the three branches at concrete inputs. -/
theorem saveTodos_error_policy_witness :
    (saveTodos [sampleTodo] ⟨none, false, some ⟨true, "QuotaExceededError"⟩⟩).1 =
      ⟨false, some quotaMsg⟩ ∧
    (saveTodos [sampleTodo] ⟨none, false, some ⟨true, "SecurityError"⟩⟩).1 =
      ⟨false, some genericSaveMsg⟩ ∧
    (saveTodos [sampleTodo] ⟨none, false, none⟩).1.success = true := by
  refine ⟨?_, ?_, ?_⟩
  · exact ((saveTodos_error_policy [sampleTodo]
      ⟨none, false, some ⟨true, "QuotaExceededError"⟩⟩).2 _ rfl).1 ⟨rfl, rfl⟩
  · exact ((saveTodos_error_policy [sampleTodo]
      ⟨none, false, some ⟨true, "SecurityError"⟩⟩).2 _ rfl).2 (by simp)
  · exact (saveTodos_error_policy [sampleTodo] ⟨none, false, none⟩).1.mpr rfl

/-- C3: on a stored value that fails `JSON.parse`, and on a parsed value that
fails the `isValidTodos` shape predicate, `loadTodos` logs a warning (the
shape branch logs its distinct warning first), deletes the stored key when
`removeItem` succeeds, and returns the empty sequence; when `removeItem`
itself throws, the failure is swallowed (the store is left as it was) and
`loadTodos` still returns the empty sequence — no error escapes, the
embedding of the function being total over every store behaviour. -/
theorem loadTodos_corruption_recovery (rt : Bool) (w : Option JSError) :
    (∀ v : JSVal, isValidTodos v = false →
      loadTodos ⟨some (.jsonOf v), rt, w⟩ =
        ([], ⟨if rt then some (.jsonOf v) else none, rt, w⟩,
          if rt then [invalidShapeMsg, loadFailMsg] else [invalidShapeMsg])) ∧
    loadTodos ⟨some .corruptText, rt, w⟩ =
      ([], ⟨if rt then some .corruptText else none, rt, w⟩, [loadFailMsg]) := by
  constructor
  · intro v hv
    cases rt <;> simp [loadTodos, loadCatch, hv]
  · cases rt <;> simp [loadTodos, loadCatch]

/-- C3 witness: a shape-invalid stored value (`[{invalid: "structure"}]`-like)
with a working `removeItem`, and one with a throwing `removeItem`. -/
theorem loadTodos_corruption_recovery_witness :
    loadTodos ⟨some (.jsonOf (.arr [.obj [("invalid", .str "structure")]])), false, none⟩ =
      ([], ⟨none, false, none⟩, [invalidShapeMsg]) ∧
    loadTodos ⟨some (.jsonOf (.arr [.obj [("invalid", .str "structure")]])), true, none⟩ =
      ([], ⟨some (.jsonOf (.arr [.obj [("invalid", .str "structure")]])), true, none⟩,
        [invalidShapeMsg, loadFailMsg]) := by
  constructor
  · exact (loadTodos_corruption_recovery false none).1 _ rfl
  · exact (loadTodos_corruption_recovery true none).1 _ rfl

/-- Every serialized todo record passes the shape predicate. -/
theorem isValidTodoItem_todoToWire (t : Todo) : isValidTodoItem (todoToWire t) = true := rfl

/-- Every serialized todo collection passes the shape predicate. -/
theorem isValidTodos_stringifyTodos (S : List Todo) :
    isValidTodos (stringifyTodos S) = true := by
  show (S.map todoToWire).all isValidTodoItem = true
  rw [List.all_eq_true]
  intro x hx
  rw [List.mem_map] at hx
  obtain ⟨t, _, rfl⟩ := hx
  exact isValidTodoItem_todoToWire t

/-- The `createdAt` normalization turns a serialized todo record back into
the runtime record it came from: the wire string parses back to the same
instant. -/
theorem normalizeTodo_todoToWire (t : Todo) :
    normalizeTodo (todoToWire t) = todoToJS t := by
  show JSVal.obj
      [("id", .str t.id), ("title", .str t.title),
       ("description", .str t.description), ("completed", .bool t.completed),
       ("createdAt", .date (decimalToInt (intToDecimal t.createdAt)))] = todoToJS t
  rw [decimalToInt_intToDecimal]
  rfl

/-- C1: for every todo sequence `S`, loading right after a successful save
(no quota or write failure: `writeError = none`) returns exactly the runtime
form of `S` — the same records, with each `createdAt` serialized to a string
on the wire and parsed back to a `Date` denoting the same instant. -/
theorem save_load_roundtrip (S : List Todo) (st : Option RawText) (rt : Bool) :
    (saveTodos S ⟨st, rt, none⟩).1 = ⟨true, none⟩ ∧
    (loadTodos (saveTodos S ⟨st, rt, none⟩).2.1).1 = S.map todoToJS := by
  constructor
  · rfl
  · show (loadTodos ⟨some (.jsonOf (stringifyTodos S)), rt, none⟩).1 = S.map todoToJS
    simp only [loadTodos, isValidTodos_stringifyTodos S, if_pos]
    show (S.map todoToWire).map normalizeTodo = S.map todoToJS
    rw [List.map_map]
    exact List.map_congr_left fun t _ => normalizeTodo_todoToWire t

/-- C4 counterexample: hydration is immediately followed by a `saveTodos`
write of the very collection that was just loaded — the persistence effect
`useEffect(..., [todos, showToast])` runs on the first render after mount,
before any mutation. (The repository's own test expects `saveTodos` to be
called "once for initial empty array, once for the added todo".) So the
claim that no `saveTodos` write occurs until a mutation changes the
collection is false. -/
theorem hydration_resaves_counterexample :
    (mount [sampleTodo]).saveCalls = [[sampleTodo]] ∧
    (mount [sampleTodo]).saveCalls ≠ [] := by decide

/-- C4 (amended): after the provider hydrates its collection from
`loadTodos`, the mount-time effect run issues exactly one `saveTodos` write,
whose payload is the just-loaded collection itself; after that the effect is
quiescent — re-running the effect phase without a mutation issues no further
write (a new write needs a new collection reference, i.e. a mutation). -/
theorem hydration_single_save (L : List Todo) :
    (mount L).saveCalls = [L] ∧ flushEffect (mount L) = mount L := by
  constructor
  · rfl
  · simp [mount, hydrate, flushEffect]

/-! ## C5: the shape predicate, characterized against the spec's wording -/

/-- The spec's per-record shape requirement, stated in the spec's own terms
(with the correction the code forces: the record must *contain* the five
fields with the stated types — it is not required to contain *only* them):
a non-null record whose `id`, `title`, `description` are strings, whose
`completed` is a boolean and whose `createdAt` is a date value or a string. -/
def SpecTodoShape (item : JSVal) : Prop :=
  (∃ fs, item = JSVal.obj fs) ∧
  (∃ s, getField item "id" = .str s) ∧
  (∃ s, getField item "title" = .str s) ∧
  (∃ s, getField item "description" = .str s) ∧
  (∃ b, getField item "completed" = .bool b) ∧
  ((∃ n, getField item "createdAt" = .date n) ∨
    (∃ s, getField item "createdAt" = .str s))

theorem typeof_string_iff (v : JSVal) :
    typeofStr v = "string" ↔ ∃ s, v = .str s := by
  cases v <;> simp [typeofStr]

theorem typeof_boolean_iff (v : JSVal) :
    typeofStr v = "boolean" ↔ ∃ b, v = .bool b := by
  cases v <;> simp [typeofStr]

theorem instanceOfDate_iff (v : JSVal) :
    isInstanceOfDate v = true ↔ ∃ n, v = .date n := by
  cases v <;> simp [isInstanceOfDate]

/-- The per-element check of the source coincides with the spec's per-record
shape requirement: in particular an element that is an array or a `Date`
(both `typeof === 'object'` and non-null) is still rejected, because its
`id` property is `undefined`. -/
theorem isValidTodoItem_iff (item : JSVal) :
    isValidTodoItem item = true ↔ SpecTodoShape item := by
  constructor
  · intro h
    cases item with
    | str s => simp [isValidTodoItem, typeofStr] at h
    | num n => simp [isValidTodoItem, typeofStr] at h
    | bool b => simp [isValidTodoItem, typeofStr] at h
    | null => simp [isValidTodoItem, isNull] at h
    | undefinedVal => simp [isValidTodoItem, typeofStr] at h
    | date t => simp [isValidTodoItem, getField, typeofStr] at h
    | arr es => simp [isValidTodoItem, getField, typeofStr] at h
    | obj fs =>
      simp only [isValidTodoItem, Bool.and_eq_true, Bool.or_eq_true,
        beq_iff_eq, and_assoc] at h
      obtain ⟨-, -, hid, htitle, hdesc, hcomp, hcreated⟩ := h
      refine ⟨⟨fs, rfl⟩, (typeof_string_iff _).mp hid,
        (typeof_string_iff _).mp htitle, (typeof_string_iff _).mp hdesc,
        (typeof_boolean_iff _).mp hcomp, ?_⟩
      rcases hcreated with hd | hs
      · exact Or.inl ((instanceOfDate_iff _).mp hd)
      · exact Or.inr ((typeof_string_iff _).mp hs)
  · rintro ⟨⟨fs, rfl⟩, hid, htitle, hdesc, hcomp, hcreated⟩
    simp only [isValidTodoItem, Bool.and_eq_true, Bool.or_eq_true,
      beq_iff_eq, and_assoc]
    refine ⟨rfl, ?_, (typeof_string_iff _).mpr hid,
      (typeof_string_iff _).mpr htitle, (typeof_string_iff _).mpr hdesc,
      (typeof_boolean_iff _).mpr hcomp, ?_⟩
    · simp [isNull]
    · rcases hcreated with hd | hs
      · exact Or.inl ((instanceOfDate_iff _).mpr hd)
      · exact Or.inr ((typeof_string_iff _).mpr hs)

/-- C5 counterexample: a record carrying a sixth field `extra` beyond the
five required ones still passes `isValidTodos` — the source checks presence
and types of the five fields but never rejects additional fields, so "a
record carrying any additional field beyond these five makes the whole
sequence invalid" is false on the code. -/
theorem isValidTodos_extra_field_counterexample :
    isValidTodos (.arr [.obj [("id", .str "1"), ("title", .str "t"),
      ("description", .str "d"), ("completed", .bool false),
      ("createdAt", .str "2023-01-01"), ("extra", .num 0)]]) = true ∧
    getField (.obj [("id", .str "1"), ("title", .str "t"),
      ("description", .str "d"), ("completed", .bool false),
      ("createdAt", .str "2023-01-01"), ("extra", .num 0)]) "extra" = .num 0 :=
  ⟨rfl, rfl⟩

/-- C5 (amended): `isValidTodos x` is true iff `x` is a sequence every
element of which is a non-null record containing **at least** the five fields
`id` (string), `title` (string), `description` (string), `completed`
(boolean) and `createdAt` (date value or string) — additional fields beyond
these five are permitted; one malformed element still invalidates the whole
sequence, and the empty sequence is valid. -/
theorem isValidTodos_shape_iff (x : JSVal) :
    isValidTodos x = true ↔
      ∃ elems, x = JSVal.arr elems ∧ ∀ item ∈ elems, SpecTodoShape item := by
  cases x with
  | arr elems =>
    simp only [isValidTodos, List.all_eq_true]
    constructor
    · intro h
      exact ⟨elems, rfl, fun item hm => (isValidTodoItem_iff item).mp (h item hm)⟩
    · rintro ⟨es, hes, hall⟩
      have : elems = es := by injection hes
      subst this
      exact fun item hm => (isValidTodoItem_iff item).mpr (hall item hm)
  | str s => simp [isValidTodos]
  | num n => simp [isValidTodos]
  | bool b => simp [isValidTodos]
  | null => simp [isValidTodos]
  | undefinedVal => simp [isValidTodos]
  | date t => simp [isValidTodos]
  | obj fs => simp [isValidTodos]

/-- C5 witness: the amended characterization evaluated at a concrete
sequence: a well-formed one-record sequence is valid. -/
theorem isValidTodos_shape_iff_witness :
    isValidTodos (.arr [todoToJS sampleTodo]) = true :=
  (isValidTodos_shape_iff (.arr [todoToJS sampleTodo])).mpr
    ⟨[todoToJS sampleTodo], rfl, by
      intro item hm
      rw [List.mem_singleton] at hm
      subst hm
      exact ⟨⟨_, rfl⟩, ⟨_, rfl⟩, ⟨_, rfl⟩, ⟨_, rfl⟩, ⟨_, rfl⟩, Or.inl ⟨_, rfl⟩⟩⟩

/-! ## C6-C8: the mutation operations -/

/-- A sample collection element with id `"a"`. -/
def todoA : Todo := ⟨"a", "first", "", false, 0⟩

/-- A sample collection element with id `"b"`. -/
def todoB : Todo := ⟨"b", "second", "", true, 5⟩

/-- When no record matches the id, `toggleTodoCompletion`'s list body leaves
every element unchanged. -/
theorem toggleList_no_match {id : String} {todos : List Todo}
    (h : todos.find? (fun t => t.id == id) = none) : toggleList id todos = todos := by
  have h' := List.find?_eq_none.mp h
  unfold toggleList
  have hmap : todos.map
      (fun t => if t.id == id then { t with completed := !t.completed } else t) =
      todos.map (fun t => t) := by
    apply List.map_congr_left
    intro t ht
    rw [if_neg (h' t ht)]
  rw [hmap, List.map_id']

/-- C6 counterexample: the source does not guard `editTodo` against `updates`
carrying `id`; with the two-record collection `[a, b]` (distinct ids),
`editTodo("a", {id: "b"})` rewrites the first record's id to `"b"`, so a
surviving record did not keep its original id and the resulting ids
`["b", "b"]` are no longer pairwise distinct. -/
theorem editTodo_id_update_counterexample :
    (editList "a" ⟨some "b", none, none, none, none⟩ [todoA, todoB]).map Todo.id =
      ["b", "b"] ∧
    ¬ ((editList "a" ⟨some "b", none, none, none, none⟩ [todoA, todoB]).map
      Todo.id).Nodup := by decide

/-- C6 (amended): for every collection with pairwise-distinct ids, the public
operations preserve the invariant with the one proviso the code forces on
`editTodo`: `addTodo` with a fresh generated id keeps the ids pairwise
distinct; `editTodo` whose `updates` does not carry `id` (the unguarded case
`updates.id` present can rewrite ids, see the counterexample) and
`toggleTodoCompletion` leave the id sequence unchanged (so ids stay distinct
and every record keeps its id); `deleteTodo` keeps the remaining ids
pairwise distinct and every surviving record is one of the original records
unchanged. -/
theorem ops_preserve_id_invariants (todos : List Todo)
    (hN : (todos.map Todo.id).Nodup) :
    (∀ nt : Todo, nt.id ∉ todos.map Todo.id →
      ((addList todos nt).map Todo.id).Nodup) ∧
    (∀ id u, TodoUpdates.id? u = none →
      (editList id u todos).map Todo.id = todos.map Todo.id) ∧
    (∀ id, (toggleList id todos).map Todo.id = todos.map Todo.id) ∧
    (∀ id, ((deleteList id todos).map Todo.id).Nodup ∧
      ∀ t ∈ deleteList id todos, t ∈ todos) := by
  refine ⟨?_, ?_, ?_, ?_⟩
  · intro nt hnt
    rw [addList, List.map_append]
    rw [List.nodup_append]
    refine ⟨hN, List.nodup_singleton _, ?_⟩
    intro x hx hmem
    rw [List.map_singleton, List.mem_singleton] at hmem
    subst hmem
    exact hnt hx
  · intro id u hu
    unfold editList
    rw [List.map_map]
    apply List.map_congr_left
    intro t ht
    by_cases hb : (t.id == id) = true
    · simp only [Function.comp_apply, if_pos hb, mergeTodo, hu, Option.getD_none]
    · simp only [Function.comp_apply, if_neg hb]
  · intro id
    unfold toggleList
    rw [List.map_map]
    apply List.map_congr_left
    intro t ht
    by_cases hb : (t.id == id) = true
    · simp only [Function.comp_apply, if_pos hb]
    · simp only [Function.comp_apply, if_neg hb]
  · intro id
    constructor
    · exact List.Nodup.sublist ((List.filter_sublist todos).map Todo.id) hN
    · intro t ht
      exact List.mem_of_mem_filter ht

/-- C6 witness: the invariants evaluated on the concrete collection
`[a, b]`. -/
theorem ops_preserve_id_invariants_witness :
    ((addList [todoA, todoB] ⟨"c", "T", "D", false, 0⟩).map Todo.id).Nodup ∧
    (editList "a" ⟨none, some "New", none, none, none⟩ [todoA, todoB]).map Todo.id =
      [todoA, todoB].map Todo.id ∧
    (toggleList "a" [todoA, todoB]).map Todo.id = [todoA, todoB].map Todo.id ∧
    ((deleteList "a" [todoA, todoB]).map Todo.id).Nodup := by
  have h := ops_preserve_id_invariants [todoA, todoB] (by decide)
  exact ⟨h.1 _ (by decide), h.2.1 "a" _ rfl, h.2.2.1 "a", (h.2.2.2 "a").1⟩

/-- Two records sharing the id `"a"` but with different `completed` flags. -/
def dupTodoX : Todo := ⟨"a", "x", "", false, 0⟩

/-- Second record with the duplicated id `"a"`. -/
def dupTodoY : Todo := ⟨"a", "y", "", true, 0⟩

/-- C7 counterexample: on a collection with a duplicated id,
`toggleTodoCompletion` flips each matching record individually (yielding
completed flags `[true, false]` here), while `editTodo(id, {completed: c})`
sets every matching record to the same flag `c` — so the claimed equivalence
fails for both possible values of `!current`, i.e. for every reading of "the
record matching id". -/
theorem toggle_editTodo_duplicate_ids_counterexample :
    toggleList "a" [dupTodoX, dupTodoY] ≠
      editList "a" ⟨none, none, none, some true, none⟩ [dupTodoX, dupTodoY] ∧
    toggleList "a" [dupTodoX, dupTodoY] ≠
      editList "a" ⟨none, none, none, some false, none⟩ [dupTodoX, dupTodoY] := by
  decide

/-- C7 (amended): for every collection whose ids are pairwise distinct (the
documented collection invariant) and every id, `toggleTodoCompletion(id)`
produces exactly the collection `editTodo(id, {completed: !current})` does,
where `current` is the completed flag of the record matching `id`: the
matching record's flag is flipped, all other records are unchanged; and if
no record matches, the records are unchanged. -/
theorem toggle_is_editTodo_completed (todos : List Todo) (id : String)
    (hN : (todos.map Todo.id).Nodup) :
    (∀ t, todos.find? (fun x => x.id == id) = some t →
      toggleList id todos =
        editList id ⟨none, none, none, some (!t.completed), none⟩ todos) ∧
    (todos.find? (fun x => x.id == id) = none → toggleList id todos = todos) := by
  constructor
  · intro t hf
    have htmem : t ∈ todos := List.mem_of_find?_eq_some hf
    have htid' := List.find?_some hf
    have htid : t.id = id := by
      simpa using htid'
    unfold toggleList editList
    apply List.map_congr_left
    intro x hx
    by_cases hb : (x.id == id) = true
    · rw [if_pos hb, if_pos hb]
      have hxid : x.id = id := beq_iff_eq.mp hb
      have hxt : x = t :=
        List.inj_on_of_nodup_map hN hx htmem (by rw [hxid, htid])
      subst hxt
      rfl
    · rw [if_neg hb, if_neg hb]
  · exact toggleList_no_match

/-- C7 witness: at the concrete distinct-id collection `[a, b]`, toggling
`"a"` (whose current flag is `false`) equals `editTodo("a",
{completed: true})`. -/
theorem toggle_is_editTodo_completed_witness :
    toggleList "a" [todoA, todoB] =
      editList "a" ⟨none, none, none, some true, none⟩ [todoA, todoB] :=
  (toggle_is_editTodo_completed [todoA, todoB] "a" (by decide)).1 todoA rfl

/-- C8 counterexample: toggling a non-existent id does *not* leave the
collection reference-unchanged — the body always calls `setTodos(todos.map
(...))` and `Array.prototype.map` allocates a fresh array, so the provider
installs a new array reference whose element values are unchanged (and it is
precisely this new reference that makes the persistence effect re-run). -/
theorem toggle_missing_id_ref_counterexample :
    (toggleTodoCompletionP (mount [todoA]) "z").todos.val =
      (mount [todoA]).todos.val ∧
    (toggleTodoCompletionP (mount [todoA]) "z").todos.rid ≠
      (mount [todoA]).todos.rid := by decide

/-- C8 (amended): from a quiescent provider state (the persistence effect has
run for the current collection reference, and the next allocation is a fresh
reference), `toggleTodoCompletion(id)` for an id matching no record leaves
the collection's element values unchanged but installs a fresh array
reference, and still triggers exactly one additional `saveTodos` write whose
payload is the unchanged collection. -/
theorem toggle_missing_id_write (s : ProviderState) (id : String)
    (hq : s.effectDeps = some s.todos.rid)
    (hr : s.todos.rid ≠ s.nextRid)
    (hm : s.todos.val.find? (fun t => t.id == id) = none) :
    (toggleTodoCompletionP s id).todos.val = s.todos.val ∧
    (toggleTodoCompletionP s id).todos.rid ≠ s.todos.rid ∧
    (toggleTodoCompletionP s id).saveCalls = s.saveCalls ++ [s.todos.val] := by
  have hval := toggleList_no_match hm
  have hcond : ¬ ((setTodosRef s (toggleList id s.todos.val)).effectDeps =
      some (setTodosRef s (toggleList id s.todos.val)).todos.rid) := by
    show ¬ (s.effectDeps = some s.nextRid)
    rw [hq]
    intro hc
    exact hr (Option.some.inj hc)
  unfold toggleTodoCompletionP
  rw [flushEffect, if_neg hcond]
  refine ⟨hval, ?_, by rw [hval]; rfl⟩
  show s.nextRid ≠ s.todos.rid
  exact fun hc => hr hc.symm

/-- C8 witness: the mounted provider holding `[a]`, toggling the absent id
`"z"`: values unchanged, fresh reference, exactly one more write of `[a]`. -/
theorem toggle_missing_id_write_witness :
    (toggleTodoCompletionP (mount [todoA]) "z").todos.val =
      (mount [todoA]).todos.val ∧
    (toggleTodoCompletionP (mount [todoA]) "z").todos.rid ≠
      (mount [todoA]).todos.rid ∧
    (toggleTodoCompletionP (mount [todoA]) "z").saveCalls =
      (mount [todoA]).saveCalls ++ [(mount [todoA]).todos.val] :=
  toggle_missing_id_write (mount [todoA]) "z" rfl (by decide) rfl

/-! ## C9: toast identifiers -/

/-- C9 counterexample: two `showToast` calls within the same millisecond
(`Date.now()` returning `7` both times) generate the *same* identifier, and
dismissing (or auto-removing) by that identifier removes both notifications
at once — so "freshly generated identifiers are distinct for every two
distinct calls" is false on the code. -/
theorem toast_id_collision_counterexample :
    (showToast 7 "b" "info" 5000 (showToast 7 "a" "info" 5000 [])).map
      ToastMessage.id = ["7", "7"] ∧
    dismissToast (genToastId 7)
      (showToast 7 "b" "info" 5000 (showToast 7 "a" "info" 5000 [])) = [] := by
  decide

/-- C9 (amended): identifiers generated by two `showToast` calls are distinct
whenever the two `Date.now()` readings differ (the generator is injective in
the clock value); in that case dismissal by one identifier removes exactly
its own notification and never the other. Calls falling in the same
millisecond share an identifier (see the counterexample). -/
theorem toast_ids_distinct (n1 n2 : Nat) (h : n1 ≠ n2)
    (m1 m2 ty1 ty2 : String) (d1 d2 : Nat) :
    genToastId n1 ≠ genToastId n2 ∧
    dismissToast (genToastId n1)
      (showToast n2 m2 ty2 d2 (showToast n1 m1 ty1 d1 [])) =
      [⟨genToastId n2, m2, ty2, d2⟩] := by
  have hid : genToastId n1 ≠ genToastId n2 :=
    fun hc => h (natToDecimal_injective hc)
  refine ⟨hid, ?_⟩
  unfold showToast dismissToast
  have h21 : (genToastId n2 == genToastId n1) = false :=
    beq_eq_false_iff_ne.mpr (Ne.symm hid)
  simp [List.filter_cons, h21]

/-- C9 witness: clock readings 1 and 2. -/
theorem toast_ids_distinct_witness :
    genToastId 1 ≠ genToastId 2 ∧
    dismissToast (genToastId 1)
      (showToast 2 "m2" "info" 5000 (showToast 1 "m1" "info" 5000 [])) =
      [⟨genToastId 2, "m2", "info", 5000⟩] :=
  toast_ids_distinct 1 2 (by decide) "m1" "m2" "info" "info" 5000 5000

end TodoApp
